import Mathlib

/-!
# Verification of the reflectix run-time reflection protocol

Shallow embedding of the `reflectix` crates:

* `reflectix-core/src/lib.rs` — schema model (`FieldId`, field-access and
  construction error enums), the type-erased handles `Unsizeable` /
  `UnsizeableMut` with their `downcast_ref` / `downcast_mut` operations, and
  the primitive registrations (`impl_primitive!`).
* `reflectix-macros/src/lib.rs` — the semantics of the code emitted by the
  `TypeInfo` derive macro: the field-access `match` statements
  (`create_dyn_field_access_match`, `create_dyn_variant_access_match`) and the
  constructor bodies (`create_dyn_fields_ctor_body`, `create_dyn_struct_ctor`,
  `create_dyn_enum_ctor`).

Modelling conventions:

* Rust's `TypeId` is modelled by the type's identifier string: the macro only
  supports single-identifier field types (`type_ident.path.get_ident()`), so
  within one derive scope equal identifiers denote equal types.
* A `Box<dyn Any>` argument is a `Val`; its runtime `TypeId` is `Val.typeId`.
  `Box::downcast::<T>` succeeds iff `Val.typeId` equals `T`'s identifier.
* Raw pointers are modelled by a snapshot of the pointee (`Option Val`,
  `none` standing for the null pointer that `as_ref`/`as_mut` reject) plus,
  for the mutable handle, the position of the aliased field inside its owner
  (`path`); writing through the reference is explicit state passing that
  replaces the owner's field at that position (`downcastAssign`).
-/

namespace Reflectix

/-- `reflectix_core::FieldId` — discriminant of a particular field. -/
inductive FieldId where
  | Index : Nat → FieldId
  | Named : String → FieldId
deriving DecidableEq, Repr

/-- `reflectix_core::FieldAccessError`. -/
inductive FieldAccessError where
  | UnmatchingType
  | Unit
  | NotFound
deriving DecidableEq, Repr

/-- `reflectix_core::RuntimeConstructError`. -/
inductive RuntimeConstructError where
  | Primitive
  | UnexpectedType (index : Nat) (expected : String)
  | InvalidVariant
  | PrivateFields
  | NotStruct
  | NotEnum
  | NotEnoughArgs
deriving DecidableEq, Repr

/-- Model of a runtime Rust value (the payload behind a `Box<dyn Any>` or a
field's storage).  `prim` carries an opaque payload for scalar/string
primitives; `struc` and `enumv` are values of derived product and tagged-union
types, `variantIdx` being the declaration position of the active variant (its
stored discriminant).  The first component is always the value's runtime type
identifier (modelling `TypeId::of`). -/
inductive Val where
  | prim (tyId : String) (payload : Int)
  | struc (tyId : String) (fields : List Val)
  | enumv (tyId : String) (variantIdx : Nat) (fields : List Val)

/-- Runtime type identity of a value (`TypeId` of the concrete type). -/
def Val.typeId : Val → String
  | .prim t _ => t
  | .struc t _ => t
  | .enumv t _ _ => t

/-- `reflectix_macros::Field` — a field as the derive macro sees it:
its identifier and the identifier of its declared type. -/
structure Field where
  id : FieldId
  ty_ident : String
deriving DecidableEq, Repr

/-- `reflectix_macros::Fields`. -/
inductive Fields where
  | Named : List Field → Fields
  | Indexed : List Field → Fields
  | Unit : Fields

/-- `reflectix_macros::Variant` (the `discriminator` literal is carried by the
macro's meta type but never read by the generated method bodies; the
constructed value's discriminant is the variant's declaration position). -/
structure Variant where
  name : String
  fields : Fields

/-- `reflectix_macros::Data`. -/
inductive Data where
  | Struct : Fields → Data
  | Enum : List Variant → Data

/-- The field list of a `Named` or `Indexed` shape; `none` for `Unit`. -/
def Fields.fieldList : Fields → Option (List Field)
  | .Named fs => some fs
  | .Indexed fs => some fs
  | .Unit => none

/-- `reflectix_core::Unsizeable` — immutable type-erased handle.
`ptr` is the `*const ()` (modelled by a snapshot of the pointee, `none` for
null), `target_id` the recorded runtime type identity. -/
structure Unsizeable where
  ptr : Option Val
  target_id : String

/-- `Unsizeable::new`. -/
def Unsizeable.new (ptr : Option Val) (target_id : String) : Unsizeable :=
  ⟨ptr, target_id⟩

/-- `Unsizeable::downcast_ref::<T>`: `None` unless `TypeId::of::<T>()`
equals the recorded identity; on match, `target_ptr.as_ref()` (which is
`None` exactly for the null pointer). -/
def Unsizeable.downcast_ref (self : Unsizeable) (T : String) : Option Val :=
  if T ≠ self.target_id then none
  else self.ptr

/-- `reflectix_core::UnsizeableMut` — mutable type-erased handle.  The raw
`*mut ()` is modelled as the pair (`ptr` = snapshot of the pointee, `none`
for null; `path` = position of the aliased field storage inside its owner). -/
structure UnsizeableMut where
  ptr : Option Val
  path : Nat
  target_id : String

/-- `UnsizeableMut::new`. -/
def UnsizeableMut.new (ptr : Option Val) (path : Nat) (target_id : String) :
    UnsizeableMut :=
  ⟨ptr, path, target_id⟩

/-- `UnsizeableMut::downcast_mut::<T>`: `None` unless the identities match;
on match, `target_ptr.as_mut()`. -/
def UnsizeableMut.downcast_mut (self : UnsizeableMut) (T : String) : Option Val :=
  if T ≠ self.target_id then none
  else self.ptr

/-- Writing `newVal` through the mutable reference produced by
`downcast_mut::<T>` (i.e. `*handle.downcast_mut::<T>().unwrap() = newVal`):
defined only when the downcast yields a reference, and then it updates the
owner's aliased field storage in place. -/
def downcastAssign (h : UnsizeableMut) (T : String) (newVal : Val)
    (ownerFields : List Val) : Option (List Val) :=
  match h.downcast_mut T with
  | none => none
  | some _ => some (ownerFields.set h.path newVal)

/-! ## Primitive registrations (`impl_primitive!` in reflectix-core) -/

/-- `construct_struct` for every primitive registration: unconditionally
`Err(RuntimeConstructError::Primitive)`. -/
def primitive_construct_struct (_args : List Val) :
    Except RuntimeConstructError Val :=
  .error .Primitive

/-- `construct_enum` for every primitive registration: unconditionally
`Err(RuntimeConstructError::Primitive)`. -/
def primitive_construct_enum (_variant : String) (_args : List Val) :
    Except RuntimeConstructError Val :=
  .error .Primitive

/-- `field` for every primitive registration: unconditionally
`Err(FieldAccessError::Unit)`. -/
def primitive_field (_id : FieldId) : Except FieldAccessError Unsizeable :=
  .error .Unit

/-- `field_mut` for every primitive registration: unconditionally
`Err(FieldAccessError::Unit)`. -/
def primitive_field_mut (_id : FieldId) : Except FieldAccessError UnsizeableMut :=
  .error .Unit

/-! ## Generated field access (`create_dyn_field_access_match`) -/

/-- The `match` emitted by `create_dyn_field_access_match` (immutable case):
one arm per declared field, compared against the requested id in declaration
order; the matching arm hands back `Unsizeable::new(&field as *const _, TypeId
of the field's declared type)`; the wildcard arm is
`Err(FieldAccessError::NotFound)`.  The list pairs each field with the live
value currently stored in it. -/
def fieldAccessMatch : List (Field × Val) → FieldId →
    Except FieldAccessError Unsizeable
  | [], _ => .error .NotFound
  | (f, v) :: rest, id =>
    if id = f.id then .ok (Unsizeable.new (some v) f.ty_ident)
    else fieldAccessMatch rest id

/-- The `match` emitted by `create_dyn_field_access_match` (mutable case);
`pos` is the declaration position of the head field, recorded as the handle's
aliased location. -/
def fieldAccessMatchMut : List (Field × Val) → Nat → FieldId →
    Except FieldAccessError UnsizeableMut
  | [], _, _ => .error .NotFound
  | (f, v) :: rest, pos, id =>
    if id = f.id then .ok (UnsizeableMut.new (some v) pos f.ty_ident)
    else fieldAccessMatchMut rest (pos + 1) id

/-- The generated `field` method of a derived struct (`Data::Struct` branch of
`create_get_dyn_field_method_body`).  For `Fields::Unit` the field iterator is
empty, so only the wildcard arm exists and every request hits it
(`NotFound`). -/
def field_struct (shape : Fields) (vs : List Val) (id : FieldId) :
    Except FieldAccessError Unsizeable :=
  match shape with
  | .Named fs => fieldAccessMatch (fs.zip vs) id
  | .Indexed fs => fieldAccessMatch (fs.zip vs) id
  | .Unit => fieldAccessMatch [] id

/-- The generated `field_mut` method of a derived struct. -/
def field_struct_mut (shape : Fields) (vs : List Val) (id : FieldId) :
    Except FieldAccessError UnsizeableMut :=
  match shape with
  | .Named fs => fieldAccessMatchMut (fs.zip vs) 0 id
  | .Indexed fs => fieldAccessMatchMut (fs.zip vs) 0 id
  | .Unit => fieldAccessMatchMut [] 0 id

/-- The body of one variant's arm in the `match self` emitted by
`create_dyn_variant_access_match`: a `Unit`-shaped variant's arm is
`Err(FieldAccessError::Unit)`, the other shapes run the field-access match
over that variant's own fields (paired with the live values bound by the
arm's pattern). -/
def shapeFieldLookup (sh : Fields) (vs : List Val) (id : FieldId) :
    Except FieldAccessError Unsizeable :=
  match sh with
  | .Named fs => fieldAccessMatch (fs.zip vs) id
  | .Indexed fs => fieldAccessMatch (fs.zip vs) id
  | .Unit => .error .Unit

/-- Mutable counterpart of `shapeFieldLookup`. -/
def shapeFieldLookupMut (sh : Fields) (vs : List Val) (id : FieldId) :
    Except FieldAccessError UnsizeableMut :=
  match sh with
  | .Named fs => fieldAccessMatchMut (fs.zip vs) 0 id
  | .Indexed fs => fieldAccessMatchMut (fs.zip vs) 0 id
  | .Unit => .error .Unit

/-- The `match self` emitted by `create_dyn_variant_access_match` (the
generated `field` method of a derived enum): the arm is selected by the live
value's active variant (`activeIdx`, its stored discriminant — never by an
argument), with the variant's fields holding `vs`.  The source's wildcard arm
is unreachable — the emitted `match` on `self` has one arm per declared
variant, so a live value always selects one of them (the arm even names a
`FieldAccessError` variant that does not exist); we model the unreachable
branch as `NotFound` and every theorem keeps `activeIdx` in range. -/
def variantAccessMatch (variants : List Variant) (activeIdx : Nat)
    (vs : List Val) (id : FieldId) : Except FieldAccessError Unsizeable :=
  match variants[activeIdx]? with
  | some v => shapeFieldLookup v.fields vs id
  | none => .error .NotFound

/-- Mutable counterpart of `variantAccessMatch` (generated `field_mut` of a
derived enum). -/
def variantAccessMatchMut (variants : List Variant) (activeIdx : Nat)
    (vs : List Val) (id : FieldId) : Except FieldAccessError UnsizeableMut :=
  match variants[activeIdx]? with
  | some v => shapeFieldLookupMut v.fields vs id
  | none => .error .NotFound

/-! ## Generated constructors (`create_dyn_fields_ctor_body`) -/

/-- The sequence of `args.pop()` / `downcast` statements emitted by
`create_dyn_fields_ctor_body`: the fields are visited in **reverse**
declaration order (`fields.iter().enumerate().rev()`), each step popping one
argument off the **end** of `args`.  Here `fsRev` is the field list reversed,
`i` the declaration index of the head field (initially `N - 1`), and
`argsRev` the argument vector reversed (so its head is the next value
`pop()` returns).  A failed pop is `NotEnoughArgs`; a failed
`Box::downcast::<FieldTy>` is `UnexpectedType { index, expected }` with the
field's declaration index and declared-type name.  On success it returns the
popped values in visit order (reverse declaration order). -/
def ctorPopLoop : List Field → Nat → List Val →
    Except RuntimeConstructError (List Val)
  | [], _, _ => .ok []
  | f :: fsRev, i, argsRev =>
    match argsRev with
    | [] => .error .NotEnoughArgs
    | a :: argsRev2 =>
      if a.typeId = f.ty_ident then
        match ctorPopLoop fsRev (i - 1) argsRev2 with
        | .error e => .error e
        | .ok rest => .ok (a :: rest)
      else .error (.UnexpectedType i f.ty_ident)

/-- The constructed field values in the `Fields::Indexed` branch of
`create_dyn_fields_ctor_body`: the generated expression is
`#type_ident(#(#keys),*)` whose positional arguments are the **HashMap keys**
(the field-index literals), not the downcast values, so field `j` of the
result holds the integer literal `j` coerced to field `j`'s declared type.
`HashMap` key order is unspecified; we fix the ascending order here (the
theorems drawn from this branch use a single-field shape, on which every
order coincides). -/
def indexKeyLiterals (fs : List Field) : List Val :=
  fs.enum.map (fun p => Val.prim p.2.ty_ident (p.1 : Int))

/-- `create_dyn_fields_ctor_body`: the body of a generated constructor for one
field shape.  `mk` models the constructor path the macro interpolates
(`Self` or `Self::Variant`), applied to the constructed field values in
declaration order.  For `Named` fields the HashMap associates each field name
with its own popped value, so the fields receive the popped values (in
declaration order, hence the final `reverse`); for `Indexed` fields the
generated expression discards the popped values (see `indexKeyLiterals`);
for `Unit` it is `Ok(Box::new(#type_ident))` with no argument check at all. -/
def fieldsCtorBody (mk : List Val → Val) (shape : Fields) (args : List Val) :
    Except RuntimeConstructError Val :=
  match shape with
  | .Named fs =>
    match ctorPopLoop fs.reverse (fs.length - 1) args.reverse with
    | .error e => .error e
    | .ok popped => .ok (mk popped.reverse)
  | .Indexed fs =>
    match ctorPopLoop fs.reverse (fs.length - 1) args.reverse with
    | .error e => .error e
    | .ok _ => .ok (mk (indexKeyLiterals fs))
  | .Unit => .ok (mk [])

/-- `create_dyn_struct_ctor`: the generated `construct_struct` method.  On a
derived enum the whole body is `Err(RuntimeConstructError::NotStruct)`. -/
def construct_struct (meta : Data) (tyId : String) (args : List Val) :
    Except RuntimeConstructError Val :=
  match meta with
  | .Struct shape => fieldsCtorBody (Val.struc tyId) shape args
  | .Enum _ => .error .NotStruct

/-- The `match variant` emitted by `create_dyn_enum_ctor`: the requested
variant name is compared against each declared variant name (string literal
patterns, i.e. exact string equality) in declaration order; the matching arm
runs `create_dyn_fields_ctor_body` for that variant (a `Unit` variant is
`Ok(Box::new(Self::Variant))` immediately); the wildcard arm is
`Err(RuntimeConstructError::InvalidVariant)`.  `k` is the declaration index
of the head variant and becomes the constructed value's discriminant. -/
def enumCtorMatch (tyId : String) : Nat → List Variant → String → List Val →
    Except RuntimeConstructError Val
  | _, [], _, _ => .error .InvalidVariant
  | k, v :: rest, variant, args =>
    if variant = v.name then fieldsCtorBody (Val.enumv tyId k) v.fields args
    else enumCtorMatch tyId (k + 1) rest variant args

/-- `create_dyn_enum_ctor`: the generated `construct_enum` method.  On a
derived struct the whole body is `Err(RuntimeConstructError::NotEnum)`. -/
def construct_enum (meta : Data) (tyId : String) (variant : String)
    (args : List Val) : Except RuntimeConstructError Val :=
  match meta with
  | .Struct _ => .error .NotEnum
  | .Enum variants => enumCtorMatch tyId 0 variants variant args

/-- An argument value downcasts to a field's declared type. -/
def argMatches (f : Field) (a : Val) : Prop :=
  a.typeId = f.ty_ident

end Reflectix

namespace Reflectix

/-! ## Helper lemmas about the generated field-access match -/

theorem fieldAccessMatch_head (f : Field) (v : Val) (rest : List (Field × Val))
    (id : FieldId) (hid : id = f.id) :
    fieldAccessMatch ((f, v) :: rest) id = .ok (Unsizeable.new (some v) f.ty_ident) := by
  simp [fieldAccessMatch, hid]

theorem fieldAccessMatch_skip (pre rest : List (Field × Val)) (id : FieldId)
    (h : ∀ p ∈ pre, p.1.id ≠ id) :
    fieldAccessMatch (pre ++ rest) id = fieldAccessMatch rest id := by
  induction pre with
  | nil => rfl
  | cons p ps ih =>
    obtain ⟨f, v⟩ := p
    have hf : ¬ id = f.id := fun hEq =>
      h (f, v) (List.mem_cons_self _ _) hEq.symm
    simp only [List.cons_append, fieldAccessMatch, if_neg hf]
    exact ih (fun q hq => h q (List.mem_cons_of_mem _ hq))

theorem fieldAccessMatch_notFound (pairs : List (Field × Val)) (id : FieldId)
    (h : ∀ p ∈ pairs, p.1.id ≠ id) :
    fieldAccessMatch pairs id = .error .NotFound := by
  have := fieldAccessMatch_skip pairs [] id h
  simpa using this

/-- Relates a successful mutable lookup to a subsequent immutable lookup on the
owner whose aliased field storage has been overwritten: the handle's `path`
(offset by the starting position `pos`) addresses exactly the field the
identifier resolved to, so re-reading that identifier sees the new value. -/
theorem fieldAccessMatchMut_set (fs : List Field) :
    ∀ (vs : List Val) (pos : Nat) (id : FieldId) (h : UnsizeableMut) (w : Val),
    fieldAccessMatchMut (fs.zip vs) pos id = .ok h →
    pos ≤ h.path ∧ (∃ v0, h.ptr = some v0) ∧
      fieldAccessMatch (fs.zip (vs.set (h.path - pos) w)) id =
        .ok (Unsizeable.new (some w) h.target_id) := by
  induction fs with
  | nil =>
    intro vs pos id h w hm
    simp [fieldAccessMatchMut] at hm
  | cons f fs ih =>
    intro vs pos id h w hm
    cases vs with
    | nil => simp [fieldAccessMatchMut] at hm
    | cons v vs =>
      by_cases hid : id = f.id
      · simp only [List.zip_cons_cons, fieldAccessMatchMut, if_pos hid] at hm
        obtain rfl : UnsizeableMut.new (some v) pos f.ty_ident = h := by
          simpa using hm
        refine ⟨Nat.le_refl _, ⟨v, rfl⟩, ?_⟩
        simp [UnsizeableMut.new, List.set, fieldAccessMatch, hid, Unsizeable.new]
      · simp only [List.zip_cons_cons, fieldAccessMatchMut, if_neg hid] at hm
        obtain ⟨hle, hptr, hrec⟩ := ih vs (pos + 1) id h w hm
        refine ⟨Nat.le_of_succ_le hle, hptr, ?_⟩
        have hpath : h.path - pos = (h.path - (pos + 1)) + 1 := by omega
        rw [hpath]
        simp only [List.set, List.zip_cons_cons, fieldAccessMatch, if_neg hid]
        exact hrec

theorem fieldAccessMatchMut_head (f : Field) (v : Val) (rest : List (Field × Val))
    (pos : Nat) (id : FieldId) (hid : id = f.id) :
    fieldAccessMatchMut ((f, v) :: rest) pos id
      = .ok (UnsizeableMut.new (some v) pos f.ty_ident) := by
  simp [fieldAccessMatchMut, hid]

theorem fieldAccessMatchMut_skip (pre : List (Field × Val)) :
    ∀ (rest : List (Field × Val)) (pos : Nat) (id : FieldId),
    (∀ p ∈ pre, p.1.id ≠ id) →
    fieldAccessMatchMut (pre ++ rest) pos id
      = fieldAccessMatchMut rest (pos + pre.length) id := by
  induction pre with
  | nil => intro rest pos id _; simp
  | cons p ps ih =>
    intro rest pos id h
    obtain ⟨f, v⟩ := p
    have hf : ¬ id = f.id := fun hEq =>
      h (f, v) (List.mem_cons_self _ _) hEq.symm
    simp only [List.cons_append, fieldAccessMatchMut, List.append_eq, if_neg hf]
    rw [ih rest (pos + 1) id (fun q hq => h q (List.mem_cons_of_mem _ hq))]
    have : pos + 1 + ps.length = pos + (ps.length + 1) := by omega
    simp [this]

theorem fieldAccessMatchMut_notFound (pairs : List (Field × Val)) (pos : Nat)
    (id : FieldId) (h : ∀ p ∈ pairs, p.1.id ≠ id) :
    fieldAccessMatchMut pairs pos id = .error .NotFound := by
  have := fieldAccessMatchMut_skip pairs [] pos id h
  simpa using this

/-! ## Helper lemmas about the generated constructor pop/downcast loop -/

theorem ctorPopLoop_ok {fsRev : List Field} {argsRev : List Val}
    (h : List.Forall₂ argMatches fsRev argsRev) :
    ∀ (i : Nat) (rest : List Val),
    ctorPopLoop fsRev i (argsRev ++ rest) = .ok argsRev := by
  induction h with
  | nil => intro i rest; rfl
  | @cons f a fs as ha _ ih =>
    intro i rest
    have ha2 : a.typeId = f.ty_ident := ha
    simp only [List.cons_append, ctorPopLoop, List.append_eq, if_pos ha2,
      ih (i - 1) rest]

theorem ctorPopLoop_unexpected {fsRev : List Field} {argsRev : List Val}
    (h : List.Forall₂ argMatches fsRev argsRev) :
    ∀ (f : Field) (a : Val) (fs2 : List Field) (args2 : List Val) (i : Nat),
    ¬ argMatches f a →
    ctorPopLoop (fsRev ++ f :: fs2) i (argsRev ++ a :: args2) =
      .error (.UnexpectedType (i - fsRev.length) f.ty_ident) := by
  induction h with
  | nil =>
    intro f a fs2 args2 i hbad
    have hbad2 : ¬ a.typeId = f.ty_ident := hbad
    simp only [List.nil_append, ctorPopLoop, if_neg hbad2, List.length_nil,
      Nat.sub_zero]
  | @cons g b gs bs hg _ ih =>
    intro f a fs2 args2 i hbad
    have hg2 : b.typeId = g.ty_ident := hg
    simp only [List.cons_append, ctorPopLoop, List.append_eq, if_pos hg2,
      List.length_cons]
    rw [ih f a fs2 args2 (i - 1) hbad]
    have : i - 1 - gs.length = i - (gs.length + 1) := by omega
    rw [this]

theorem ctorPopLoop_notEnough {fsRev : List Field} {argsRev : List Val}
    (h : List.Forall₂ argMatches fsRev argsRev) :
    ∀ (f : Field) (fs2 : List Field) (i : Nat),
    ctorPopLoop (fsRev ++ f :: fs2) i argsRev = .error .NotEnoughArgs := by
  induction h with
  | nil => intro f fs2 i; rfl
  | @cons g b gs bs hg _ ih =>
    intro f fs2 i
    have hg2 : b.typeId = g.ty_ident := hg
    simp only [List.cons_append, ctorPopLoop, List.append_eq, if_pos hg2]
    rw [ih f fs2 (i - 1)]

/-! ## Helper lemmas about the generated enum-constructor variant match -/

theorem enumCtorMatch_invalid (ty name : String) :
    ∀ (variants : List Variant) (k : Nat) (args : List Val),
    (∀ v ∈ variants, v.name ≠ name) →
    enumCtorMatch ty k variants name args = .error .InvalidVariant := by
  intro variants
  induction variants with
  | nil => intro k args _; rfl
  | cons v vs ih =>
    intro k args h
    have hv : ¬ name = v.name := fun hEq =>
      h v (List.mem_cons_self _ _) hEq.symm
    simp only [enumCtorMatch, if_neg hv]
    exact ih (k + 1) args (fun u hu => h u (List.mem_cons_of_mem _ hu))

theorem enumCtorMatch_unit (ty name : String) (rest : List Variant)
    (args : List Val) :
    ∀ (pre : List Variant) (k : Nat), (∀ v ∈ pre, v.name ≠ name) →
    enumCtorMatch ty k (pre ++ ⟨name, Fields.Unit⟩ :: rest) name args =
      .ok (Val.enumv ty (k + pre.length) []) := by
  intro pre
  induction pre with
  | nil =>
    intro k _
    simp [enumCtorMatch, fieldsCtorBody]
  | cons v vs ih =>
    intro k h
    have hv : ¬ name = v.name := fun hEq =>
      h v (List.mem_cons_self _ _) hEq.symm
    simp only [List.cons_append, enumCtorMatch, List.append_eq, if_neg hv]
    rw [ih (k + 1) (fun u hu => h u (List.mem_cons_of_mem _ hu))]
    have : k + 1 + vs.length = k + (vs.length + 1) := by omega
    simp [this]

end Reflectix

namespace Reflectix

/-- C1: `downcast_ref::<T>` on an `Unsizeable` and `downcast_mut::<T>` on an
`UnsizeableMut` (whose pointer carries valid, non-null storage — as does every
handle the generated accessors produce, since they cast it from a live
reference) return `some` reference to the recorded storage iff the runtime
type identity recorded in the handle equals the identity of `T`; when the
identities differ the result is `none` and no error is raised. -/
theorem c1_downcast_iff_type_identity (T : String) (u : Unsizeable)
    (m : UnsizeableMut) (v w : Val) (hu : u.ptr = some v) (hm : m.ptr = some w) :
    (u.downcast_ref T = some v ↔ T = u.target_id)
    ∧ (m.downcast_mut T = some w ↔ T = m.target_id)
    ∧ (T ≠ u.target_id → u.downcast_ref T = none)
    ∧ (T ≠ m.target_id → m.downcast_mut T = none) := by
  unfold Unsizeable.downcast_ref UnsizeableMut.downcast_mut
  by_cases h1 : T = u.target_id <;> by_cases h2 : T = m.target_id <;>
    simp [h1, h2, hu, hm]

/-- Witness for C1: a concrete immutable and mutable handle over an `i32`
field; the matching downcast succeeds, a mismatching one returns `none`. -/
theorem c1_downcast_iff_type_identity_witness :
    (Unsizeable.new (some (Val.prim "i32" 7)) "i32").ptr = some (Val.prim "i32" 7)
    ∧ ((Unsizeable.new (some (Val.prim "i32" 7)) "i32").downcast_ref "i32"
          = some (Val.prim "i32" 7)
        ↔ "i32" = (Unsizeable.new (some (Val.prim "i32" 7)) "i32").target_id)
    ∧ ("f64" ≠ (Unsizeable.new (some (Val.prim "i32" 7)) "i32").target_id →
        (Unsizeable.new (some (Val.prim "i32" 7)) "i32").downcast_ref "f64" = none) :=
  ⟨rfl,
   (c1_downcast_iff_type_identity "i32" (Unsizeable.new (some (Val.prim "i32" 7)) "i32")
      (UnsizeableMut.new (some (Val.prim "i32" 7)) 0 "i32")
      (Val.prim "i32" 7) (Val.prim "i32" 7) rfl rfl).1,
   (c1_downcast_iff_type_identity "f64" (Unsizeable.new (some (Val.prim "i32" 7)) "i32")
      (UnsizeableMut.new (some (Val.prim "i32" 7)) 0 "i32")
      (Val.prim "i32" 7) (Val.prim "i32" 7) rfl rfl).2.2.1⟩

/-- C2 (code bug, evaluated at the failing input): the `Fields::Indexed`
branch of `create_dyn_fields_ctor_body` interpolates the HashMap *keys* (the
field-index literals) — not the downcast argument values — as the positional
constructor arguments.  Constructing the one-field tuple struct `W(i32)` from
the matching argument `5` therefore succeeds but stores the literal `0`, and
the subsequent `field(Index(0))` + downcast returns `0`, not the originally
supplied `5`. -/
theorem c2_roundtrip_indexed_ctor_bug :
    construct_struct (.Struct (.Indexed [⟨.Index 0, "i32"⟩])) "W" [Val.prim "i32" 5]
      = .ok (Val.struc "W" [Val.prim "i32" 0])
    ∧ (field_struct (.Indexed [⟨.Index 0, "i32"⟩]) [Val.prim "i32" 0] (.Index 0)).map
        (fun u => u.downcast_ref "i32")
      = .ok (some (Val.prim "i32" 0))
    ∧ Val.prim "i32" 0 ≠ Val.prim "i32" 5 := by
  refine ⟨rfl, rfl, ?_⟩
  intro h
  injection h with h1 h2
  exact absurd h2 (by decide)

/-- C6 (counterexample): on a Unit product (fieldless struct) the generated
`field` body has an empty field iterator, so every request falls through to
the wildcard arm and fails with `NotFound` — not with the `Unit` error kind
the claim states. -/
theorem c6_unit_struct_counterexample :
    field_struct .Unit [] (.Named "x") = .error .NotFound
    ∧ field_struct .Unit [] (.Named "x") ≠ .error .Unit := by
  refine ⟨rfl, ?_⟩
  intro h
  rw [show field_struct .Unit [] (.Named "x") = .error .NotFound from rfl] at h
  injection h with h1
  exact absurd h1 (by decide)

/-- C6 (amended): on a Unit product, `field`/`field_mut` fail with `NotFound`
(only the wildcard arm exists); the `Unit` error kind is produced when the
live value is a tagged union whose active variant is Unit-shaped (and by the
primitive registrations), for every requested identifier. -/
theorem c6_unit_error_kinds (id : FieldId) (vs vs2 : List Val)
    (variants : List Variant) (k : Nat) (name : String)
    (hk : variants[k]? = some ⟨name, Fields.Unit⟩) :
    field_struct .Unit vs id = .error .NotFound
    ∧ field_struct_mut .Unit vs id = .error .NotFound
    ∧ variantAccessMatch variants k vs2 id = .error .Unit
    ∧ variantAccessMatchMut variants k vs2 id = .error .Unit := by
  refine ⟨rfl, rfl, ?_, ?_⟩ <;>
    simp [variantAccessMatch, variantAccessMatchMut, shapeFieldLookup,
      shapeFieldLookupMut, hk]

/-- Witness for C6 (amended) on a one-variant enum whose active variant is
Unit-shaped. -/
theorem c6_unit_error_kinds_witness :
    ([⟨"A", Fields.Unit⟩] : List Variant)[0]? = some ⟨"A", Fields.Unit⟩
    ∧ variantAccessMatch [⟨"A", Fields.Unit⟩] 0 [] (.Named "x") = .error .Unit
    ∧ variantAccessMatchMut [⟨"A", Fields.Unit⟩] 0 [] (.Named "x") = .error .Unit :=
  ⟨rfl,
   (c6_unit_error_kinds (.Named "x") [] [] [⟨"A", Fields.Unit⟩] 0 "A" rfl).2.2.1,
   (c6_unit_error_kinds (.Named "x") [] [] [⟨"A", Fields.Unit⟩] 0 "A" rfl).2.2.2⟩

/-- C7: `construct_struct` on a derived enum fails with `NotStruct` for every
argument list; `construct_enum` on a derived struct fails with `NotEnum` for
every variant name and argument list; `construct_enum` on a derived enum with
a variant name matching no declared variant (exact string comparison) fails
with `InvalidVariant`. -/
theorem c7_constructor_dispatch (ty name : String) (shape : Fields)
    (variants : List Variant) (args args2 args3 : List Val)
    (hname : ∀ v ∈ variants, v.name ≠ name) :
    construct_struct (.Enum variants) ty args = .error .NotStruct
    ∧ construct_enum (.Struct shape) ty name args2 = .error .NotEnum
    ∧ construct_enum (.Enum variants) ty name args3 = .error .InvalidVariant := by
  refine ⟨rfl, rfl, ?_⟩
  show enumCtorMatch ty 0 variants name args3 = .error .InvalidVariant
  exact enumCtorMatch_invalid ty name variants 0 args3 hname

/-- Witness for C7: `construct_variant("Triangle", [])` on the one-variant
`Shape` union fails with `InvalidVariant`. -/
theorem c7_constructor_dispatch_witness :
    (∀ v ∈ ([⟨"Circle", Fields.Indexed [⟨.Index 0, "f64"⟩]⟩] : List Variant),
        v.name ≠ "Triangle")
    ∧ construct_enum (.Enum [⟨"Circle", Fields.Indexed [⟨.Index 0, "f64"⟩]⟩])
        "Shape" "Triangle" [] = .error .InvalidVariant := by
  have h : ∀ v ∈ ([⟨"Circle", Fields.Indexed [⟨.Index 0, "f64"⟩]⟩] : List Variant),
      v.name ≠ "Triangle" := by
    intro v hv
    rw [List.mem_singleton] at hv
    subst hv
    decide
  exact ⟨h, (c7_constructor_dispatch "Shape" "Triangle" Fields.Unit _ [] [] [] h).2.2⟩

/-- C8: every primitive registration rejects `construct_struct` and
`construct_enum` with the `Primitive` error for every argument list and
variant name, and rejects `field` and `field_mut` with the `Unit` error for
every identifier. -/
theorem c8_primitive_registrations (args args2 : List Val) (variant : String)
    (id id2 : FieldId) :
    primitive_construct_struct args = .error .Primitive
    ∧ primitive_construct_enum variant args2 = .error .Primitive
    ∧ primitive_field id = .error .Unit
    ∧ primitive_field_mut id2 = .error .Unit :=
  ⟨rfl, rfl, rfl, rfl⟩

end Reflectix

namespace Reflectix

/-- Computation rule for the generated enum field-access match once the active
variant (the one selected by the live value's stored discriminant) is known. -/
theorem variantAccessMatch_eq (variants : List Variant) (k : Nat)
    (V : Variant) (vs : List Val) (id : FieldId)
    (hV : variants[k]? = some V) :
    variantAccessMatch variants k vs id = shapeFieldLookup V.fields vs id := by
  unfold variantAccessMatch
  rw [hV]

/-- Mutable counterpart of `variantAccessMatch_eq`. -/
theorem variantAccessMatchMut_eq (variants : List Variant) (k : Nat)
    (V : Variant) (vs : List Val) (id : FieldId)
    (hV : variants[k]? = some V) :
    variantAccessMatchMut variants k vs id = shapeFieldLookupMut V.fields vs id := by
  unfold variantAccessMatchMut
  rw [hV]

/-- C3: the generated `field` and `field_mut` of a tagged union match on the
live value itself, so the arm — and with it the searched field list — is
selected by the value's stored discriminant (`k`), never by an argument.  For
both accessors, an identifier matching no field of the active variant (in
particular one declared only on a different, inactive variant) fails with
`NotFound`; an identifier of the active variant resolves to a handle over that
field's current value, which downcasts to it. -/
theorem c3_active_variant_field_resolution (variants : List Variant) (k : Nat)
    (V : Variant) (vs : List Val) (id : FieldId)
    (hV : variants[k]? = some V) :
    ((∀ fs, V.fields.fieldList = some fs → (∀ f ∈ fs, f.id ≠ id) →
        variantAccessMatch variants k vs id = .error .NotFound
        ∧ variantAccessMatchMut variants k vs id = .error .NotFound)
    ∧ (∀ pre f post vpre v vpost,
        V.fields.fieldList = some (pre ++ f :: post) →
        vs = vpre ++ v :: vpost → vpre.length = pre.length →
        (∀ g ∈ pre, g.id ≠ id) → f.id = id →
        variantAccessMatch variants k vs id
            = .ok (Unsizeable.new (some v) f.ty_ident)
        ∧ (Unsizeable.new (some v) f.ty_ident).downcast_ref f.ty_ident
            = some v
        ∧ variantAccessMatchMut variants k vs id
            = .ok (UnsizeableMut.new (some v) pre.length f.ty_ident)
        ∧ (UnsizeableMut.new (some v) pre.length f.ty_ident).downcast_mut
            f.ty_ident = some v)) := by
  obtain ⟨vname, sh⟩ := V
  rw [variantAccessMatch_eq variants k ⟨vname, sh⟩ vs id hV,
    variantAccessMatchMut_eq variants k ⟨vname, sh⟩ vs id hV]
  constructor
  · intro fs hfs hnot
    have hzn : ∀ p ∈ fs.zip vs, p.1.id ≠ id := by
      intro p hp
      obtain ⟨a, b⟩ := p
      exact hnot a (List.of_mem_zip hp).1
    have hmain : fieldAccessMatch (fs.zip vs) id = .error .NotFound :=
      fieldAccessMatch_notFound _ id hzn
    have hmainMut : fieldAccessMatchMut (fs.zip vs) 0 id = .error .NotFound :=
      fieldAccessMatchMut_notFound _ 0 id hzn
    cases sh with
    | Named gs =>
      obtain rfl : gs = fs := by simpa [Fields.fieldList] using hfs
      exact ⟨hmain, hmainMut⟩
    | Indexed gs =>
      obtain rfl : gs = fs := by simpa [Fields.fieldList] using hfs
      exact ⟨hmain, hmainMut⟩
    | Unit => simp [Fields.fieldList] at hfs
  · intro pre f post vpre v vpost hfs hvs hlen hpre hid
    have hdc : (Unsizeable.new (some v) f.ty_ident).downcast_ref f.ty_ident
        = some v := by
      simp [Unsizeable.downcast_ref, Unsizeable.new]
    have hdcMut : (UnsizeableMut.new (some v) pre.length f.ty_ident).downcast_mut
        f.ty_ident = some v := by
      simp [UnsizeableMut.downcast_mut, UnsizeableMut.new]
    have hskip : ∀ p ∈ pre.zip vpre, p.1.id ≠ id := by
      intro p hp
      obtain ⟨a, b⟩ := p
      exact hpre a (List.of_mem_zip hp).1
    have hmain : fieldAccessMatch ((pre ++ f :: post).zip vs) id
        = .ok (Unsizeable.new (some v) f.ty_ident) := by
      subst hvs
      rw [List.zip_append hlen.symm, fieldAccessMatch_skip _ _ id hskip,
        List.zip_cons_cons]
      exact fieldAccessMatch_head f v _ id hid.symm
    have hmainMut : fieldAccessMatchMut ((pre ++ f :: post).zip vs) 0 id
        = .ok (UnsizeableMut.new (some v) pre.length f.ty_ident) := by
      subst hvs
      rw [List.zip_append hlen.symm,
        fieldAccessMatchMut_skip (pre.zip vpre) ((f :: post).zip (v :: vpost))
          0 id hskip,
        List.zip_cons_cons,
        fieldAccessMatchMut_head f v _ _ id hid.symm]
      have hzl : 0 + (pre.zip vpre).length = pre.length := by
        simp [List.length_zip, hlen]
      rw [hzl]
    cases sh with
    | Named gs =>
      obtain rfl : gs = pre ++ f :: post := by simpa [Fields.fieldList] using hfs
      exact ⟨hmain, hdc, hmainMut, hdcMut⟩
    | Indexed gs =>
      obtain rfl : gs = pre ++ f :: post := by simpa [Fields.fieldList] using hfs
      exact ⟨hmain, hdc, hmainMut, hdcMut⟩
    | Unit => simp [Fields.fieldList] at hfs

/-- Witness for C3: the `Shape { Circle(f64), Square(f64) }` union with live
value `Circle(2.0)`: `field(Index(0))` and `field_mut(Index(0))` resolve in
the active variant and downcast to `2.0`; an identifier of no field of the
active variant fails with `NotFound` through both accessors. -/
theorem c3_active_variant_field_resolution_witness :
    ([⟨"Circle", Fields.Indexed [⟨.Index 0, "f64"⟩]⟩,
      ⟨"Square", Fields.Indexed [⟨.Index 0, "f64"⟩]⟩] : List Variant)[0]?
      = some ⟨"Circle", Fields.Indexed [⟨.Index 0, "f64"⟩]⟩
    ∧ variantAccessMatch
        [⟨"Circle", Fields.Indexed [⟨.Index 0, "f64"⟩]⟩,
         ⟨"Square", Fields.Indexed [⟨.Index 0, "f64"⟩]⟩]
        0 [Val.prim "f64" 2] (.Named "side") = .error .NotFound
    ∧ variantAccessMatchMut
        [⟨"Circle", Fields.Indexed [⟨.Index 0, "f64"⟩]⟩,
         ⟨"Square", Fields.Indexed [⟨.Index 0, "f64"⟩]⟩]
        0 [Val.prim "f64" 2] (.Named "side") = .error .NotFound
    ∧ variantAccessMatch
        [⟨"Circle", Fields.Indexed [⟨.Index 0, "f64"⟩]⟩,
         ⟨"Square", Fields.Indexed [⟨.Index 0, "f64"⟩]⟩]
        0 [Val.prim "f64" 2] (.Index 0)
        = .ok (Unsizeable.new (some (Val.prim "f64" 2)) "f64")
    ∧ variantAccessMatchMut
        [⟨"Circle", Fields.Indexed [⟨.Index 0, "f64"⟩]⟩,
         ⟨"Square", Fields.Indexed [⟨.Index 0, "f64"⟩]⟩]
        0 [Val.prim "f64" 2] (.Index 0)
        = .ok (UnsizeableMut.new (some (Val.prim "f64" 2)) 0 "f64") := by
  refine ⟨rfl, ?_, ?_, ?_, ?_⟩
  · exact ((c3_active_variant_field_resolution
      [⟨"Circle", Fields.Indexed [⟨.Index 0, "f64"⟩]⟩,
       ⟨"Square", Fields.Indexed [⟨.Index 0, "f64"⟩]⟩]
      0 ⟨"Circle", Fields.Indexed [⟨.Index 0, "f64"⟩]⟩
      [Val.prim "f64" 2] (.Named "side") rfl).1
      [⟨.Index 0, "f64"⟩] rfl
      (by intro g hg; rw [List.mem_singleton] at hg; subst hg; decide)).1
  · exact ((c3_active_variant_field_resolution
      [⟨"Circle", Fields.Indexed [⟨.Index 0, "f64"⟩]⟩,
       ⟨"Square", Fields.Indexed [⟨.Index 0, "f64"⟩]⟩]
      0 ⟨"Circle", Fields.Indexed [⟨.Index 0, "f64"⟩]⟩
      [Val.prim "f64" 2] (.Named "side") rfl).1
      [⟨.Index 0, "f64"⟩] rfl
      (by intro g hg; rw [List.mem_singleton] at hg; subst hg; decide)).2
  · exact ((c3_active_variant_field_resolution
      [⟨"Circle", Fields.Indexed [⟨.Index 0, "f64"⟩]⟩,
       ⟨"Square", Fields.Indexed [⟨.Index 0, "f64"⟩]⟩]
      0 ⟨"Circle", Fields.Indexed [⟨.Index 0, "f64"⟩]⟩
      [Val.prim "f64" 2] (.Index 0) rfl).2
      [] ⟨.Index 0, "f64"⟩ [] [] (Val.prim "f64" 2) [] rfl rfl rfl
      (by intro g hg; exact absurd hg (List.not_mem_nil g)) rfl).1
  · exact ((c3_active_variant_field_resolution
      [⟨"Circle", Fields.Indexed [⟨.Index 0, "f64"⟩]⟩,
       ⟨"Square", Fields.Indexed [⟨.Index 0, "f64"⟩]⟩]
      0 ⟨"Circle", Fields.Indexed [⟨.Index 0, "f64"⟩]⟩
      [Val.prim "f64" 2] (.Index 0) rfl).2
      [] ⟨.Index 0, "f64"⟩ [] [] (Val.prim "f64" 2) [] rfl rfl rfl
      (by intro g hg; exact absurd hg (List.not_mem_nil g)) rfl).2.2.1

/-- C4 (counterexample): on a two-field product where *both* arguments fail to
downcast, the generated constructor reports `UnexpectedType` at index 1 — the
highest failing field position — not at index 0, the lowest, as the claim
states. -/
theorem c4_lowest_index_counterexample :
    construct_struct (.Struct (.Named [⟨.Named "a", "i32"⟩, ⟨.Named "b", "i32"⟩])) "P"
        [Val.prim "String" 0, Val.prim "String" 1]
      = .error (.UnexpectedType 1 "i32")
    ∧ (RuntimeConstructError.UnexpectedType 1 "i32")
        ≠ (RuntimeConstructError.UnexpectedType 0 "i32") :=
  ⟨rfl, by decide⟩

/-- C4 (amended): the generated constructor visits fields in reverse
declaration order, popping arguments off the end of the list; so whenever the
argument aligned with field `f` (at declaration position `pre.length`) fails
to downcast while the arguments aligned with every later field succeed, the
construction fails with `UnexpectedType{index, expected}` where `index` is
`f`'s position — the *highest* failing position — and `expected` names `f`'s
declared type. -/
theorem c4_unexpected_type_highest_index (ty : String) (shape : Fields)
    (pre post : List Field) (f : Field) (apre apost : List Val) (a : Val)
    (hshape : shape.fieldList = some (pre ++ f :: post))
    (hpost : List.Forall₂ argMatches post apost)
    (hbad : ¬ argMatches f a) :
    construct_struct (.Struct shape) ty (apre ++ a :: apost)
      = .error (.UnexpectedType pre.length f.ty_ident) := by
  have hrevfs : (pre ++ f :: post).reverse = post.reverse ++ f :: pre.reverse := by
    simp
  have hrevargs : (apre ++ a :: apost).reverse
      = apost.reverse ++ a :: apre.reverse := by simp
  have hrev : List.Forall₂ argMatches post.reverse apost.reverse :=
    List.forall₂_reverse_iff.2 hpost
  have hlen : (pre ++ f :: post).length - 1 - post.reverse.length = pre.length := by
    simp only [List.length_append, List.length_cons, List.length_reverse]
    omega
  cases shape with
  | Named gs =>
    obtain rfl : gs = pre ++ f :: post := by simpa [Fields.fieldList] using hshape
    show fieldsCtorBody (Val.struc ty) (.Named (pre ++ f :: post)) (apre ++ a :: apost)
        = _
    simp only [fieldsCtorBody, hrevfs, hrevargs]
    rw [ctorPopLoop_unexpected hrev f a pre.reverse apre.reverse _ hbad]
    simp [hlen]
  | Indexed gs =>
    obtain rfl : gs = pre ++ f :: post := by simpa [Fields.fieldList] using hshape
    show fieldsCtorBody (Val.struc ty) (.Indexed (pre ++ f :: post)) (apre ++ a :: apost)
        = _
    simp only [fieldsCtorBody, hrevfs, hrevargs]
    rw [ctorPopLoop_unexpected hrev f a pre.reverse apre.reverse _ hbad]
    simp [hlen]
  | Unit => simp [Fields.fieldList] at hshape

/-- Witness for C4 (amended): two `i32` fields, both supplied arguments of the
wrong concrete type; the failure is reported at position 1. -/
theorem c4_unexpected_type_highest_index_witness :
    (Fields.Named [⟨.Named "a", "i32"⟩, ⟨.Named "b", "i32"⟩]).fieldList
      = some ([⟨.Named "a", "i32"⟩] ++ ⟨.Named "b", "i32"⟩ :: [])
    ∧ ¬ argMatches ⟨.Named "b", "i32"⟩ (Val.prim "String" 1)
    ∧ construct_struct (.Struct (.Named [⟨.Named "a", "i32"⟩, ⟨.Named "b", "i32"⟩])) "P"
        ([Val.prim "String" 0] ++ Val.prim "String" 1 :: [])
      = .error (.UnexpectedType ([⟨(FieldId.Named "a" : FieldId), "i32"⟩] : List Field).length "i32") := by
  have hb : ¬ argMatches ⟨.Named "b", "i32"⟩ (Val.prim "String" 1) := by
    have hs : ¬ (("String" : String) = "i32") := by decide
    intro hh
    exact hs hh
  exact ⟨rfl, hb,
    c4_unexpected_type_highest_index "P" _ [⟨.Named "a", "i32"⟩] [] ⟨.Named "b", "i32"⟩
      [Val.prim "String" 0] [] (Val.prim "String" 1) rfl List.Forall₂.nil hb⟩

end Reflectix

namespace Reflectix

/-- C5 (counterexample): a two-field product called with a single argument of
the wrong concrete type fails with `UnexpectedType{1, "i32"}` — the downcast
of the popped argument runs before the next pop can fail — not with
`NotEnoughArgs` as the claim states for every under-length argument list. -/
theorem c5_not_enough_args_counterexample :
    construct_struct (.Struct (.Named [⟨.Named "a", "i32"⟩, ⟨.Named "b", "i32"⟩])) "P"
        [Val.prim "String" 9]
      = .error (.UnexpectedType 1 "i32")
    ∧ (RuntimeConstructError.UnexpectedType 1 "i32")
        ≠ RuntimeConstructError.NotEnoughArgs :=
  ⟨rfl, by decide⟩

/-- C5 (amended): with fewer arguments than fields the construction always
fails; it fails with `NotEnoughArgs` precisely when every supplied argument
downcasts to the field it is aligned with (the trailing `args.length` fields,
since arguments are popped off the end of the list) — otherwise the
`UnexpectedType` failure at the highest failing position occurs first (see
the counterexample). -/
theorem c5_not_enough_args (ty : String) (shape : Fields) (fs : List Field)
    (args : List Val)
    (hshape : shape.fieldList = some fs)
    (hlt : args.length < fs.length)
    (hmatch : List.Forall₂ argMatches (fs.drop (fs.length - args.length)) args) :
    construct_struct (.Struct shape) ty args = .error .NotEnoughArgs := by
  have hloop : ctorPopLoop fs.reverse (fs.length - 1) args.reverse
      = .error .NotEnoughArgs := by
    have htne : fs.take (fs.length - args.length) ≠ [] := by
      intro hnil
      have h0 : (fs.take (fs.length - args.length)).length = 0 := by
        rw [hnil]; rfl
      rw [List.length_take] at h0
      omega
    have hrne : (fs.take (fs.length - args.length)).reverse ≠ [] := by
      simpa using htne
    obtain ⟨g, gs, hg⟩ := List.exists_cons_of_ne_nil hrne
    have hrev : fs.reverse
        = (fs.drop (fs.length - args.length)).reverse ++ g :: gs := by
      calc fs.reverse
          = (fs.take (fs.length - args.length)
              ++ fs.drop (fs.length - args.length)).reverse := by
            rw [List.take_append_drop]
        _ = (fs.drop (fs.length - args.length)).reverse
              ++ (fs.take (fs.length - args.length)).reverse := by
            rw [List.reverse_append]
        _ = (fs.drop (fs.length - args.length)).reverse ++ g :: gs := by
            rw [hg]
    have hfa : List.Forall₂ argMatches
        (fs.drop (fs.length - args.length)).reverse args.reverse :=
      List.forall₂_reverse_iff.2 hmatch
    rw [hrev]
    exact ctorPopLoop_notEnough hfa g gs (fs.length - 1)
  cases shape with
  | Named fs2 =>
    have hEq : fs2 = fs := by simpa [Fields.fieldList] using hshape
    rw [hEq]
    show fieldsCtorBody (Val.struc ty) (.Named fs) args = _
    simp only [fieldsCtorBody]
    rw [hloop]
  | Indexed fs2 =>
    have hEq : fs2 = fs := by simpa [Fields.fieldList] using hshape
    rw [hEq]
    show fieldsCtorBody (Val.struc ty) (.Indexed fs) args = _
    simp only [fieldsCtorBody]
    rw [hloop]
  | Unit => simp [Fields.fieldList] at hshape

/-- Witness for C5 (amended): two `i32` fields, one well-typed argument
(aligned with the trailing field `b`): the construction fails with
`NotEnoughArgs`. -/
theorem c5_not_enough_args_witness :
    (Fields.Named [⟨.Named "a", "i32"⟩, ⟨.Named "b", "i32"⟩]).fieldList
      = some [⟨.Named "a", "i32"⟩, ⟨.Named "b", "i32"⟩]
    ∧ ([Val.prim "i32" 7] : List Val).length
        < ([⟨(FieldId.Named "a" : FieldId), "i32"⟩, ⟨.Named "b", "i32"⟩] : List Field).length
    ∧ construct_struct (.Struct (.Named [⟨.Named "a", "i32"⟩, ⟨.Named "b", "i32"⟩])) "P"
        [Val.prim "i32" 7]
      = .error .NotEnoughArgs := by
  refine ⟨rfl, by decide, ?_⟩
  exact c5_not_enough_args "P" _ [⟨.Named "a", "i32"⟩, ⟨.Named "b", "i32"⟩]
    [Val.prim "i32" 7] rfl (by decide)
    (List.Forall₂.cons rfl List.Forall₂.nil)

/-- C9: mutation through a `field_mut` handle is visible to subsequent reads
of the same owner.  If `field_mut(id)` on a named product succeeds with handle
`h`, then writing `newVal` through `h.downcast_mut` at the handle's recorded
type updates the owner's aliased field storage (the storage is borrowed and
aliased, not copied), and a fresh `field(id)` on the updated owner yields a
handle over exactly the newly written value, whose downcast returns it. -/
theorem c9_field_mut_write_through (fs : List Field) (vs : List Val)
    (id : FieldId) (h : UnsizeableMut) (newVal : Val)
    (hm : field_struct_mut (.Named fs) vs id = .ok h) :
    downcastAssign h h.target_id newVal vs = some (vs.set h.path newVal)
    ∧ field_struct (.Named fs) (vs.set h.path newVal) id
        = .ok (Unsizeable.new (some newVal) h.target_id)
    ∧ (Unsizeable.new (some newVal) h.target_id).downcast_ref h.target_id
        = some newVal := by
  have hm2 : fieldAccessMatchMut (fs.zip vs) 0 id = .ok h := hm
  obtain ⟨hle, ⟨v0, hptr⟩, hread⟩ := fieldAccessMatchMut_set fs vs 0 id h newVal hm2
  rw [Nat.sub_zero] at hread
  refine ⟨?_, hread, ?_⟩
  · unfold downcastAssign UnsizeableMut.downcast_mut
    simp [hptr]
  · simp [Unsizeable.downcast_ref, Unsizeable.new]

/-- Witness for C9: the `Foo { x: i32, y: i32 }` mutation scenario of the
repository's test: `field_mut("x")`, write `42` through the downcast
reference, re-read `field("x")` and observe `42`. -/
theorem c9_field_mut_write_through_witness :
    field_struct_mut (.Named [⟨.Named "x", "i32"⟩, ⟨.Named "y", "i32"⟩])
        [Val.prim "i32" 0, Val.prim "i32" 0] (.Named "x")
      = .ok (UnsizeableMut.new (some (Val.prim "i32" 0)) 0 "i32")
    ∧ downcastAssign (UnsizeableMut.new (some (Val.prim "i32" 0)) 0 "i32") "i32"
        (Val.prim "i32" 42) [Val.prim "i32" 0, Val.prim "i32" 0]
      = some [Val.prim "i32" 42, Val.prim "i32" 0]
    ∧ field_struct (.Named [⟨.Named "x", "i32"⟩, ⟨.Named "y", "i32"⟩])
        [Val.prim "i32" 42, Val.prim "i32" 0] (.Named "x")
      = .ok (Unsizeable.new (some (Val.prim "i32" 42)) "i32") :=
  ⟨rfl,
   (c9_field_mut_write_through [⟨.Named "x", "i32"⟩, ⟨.Named "y", "i32"⟩]
      [Val.prim "i32" 0, Val.prim "i32" 0] (.Named "x")
      (UnsizeableMut.new (some (Val.prim "i32" 0)) 0 "i32")
      (Val.prim "i32" 42) rfl).1,
   (c9_field_mut_write_through [⟨.Named "x", "i32"⟩, ⟨.Named "y", "i32"⟩]
      [Val.prim "i32" 0, Val.prim "i32" 0] (.Named "x")
      (UnsizeableMut.new (some (Val.prim "i32" 0)) 0 "i32")
      (Val.prim "i32" 42) rfl).2.1⟩

/-- C10 (counterexample): the claim's binding clause fails on indexed (tuple)
products: with one field and two arguments the call succeeds (no "too many
arguments" error), but the last argument `7` is *not* bound to field 0 — the
constructor bug stores the index literal `0` instead. -/
theorem c10_excess_args_counterexample :
    construct_struct (.Struct (.Indexed [⟨.Index 0, "i32"⟩])) "W"
        [Val.prim "i32" 5, Val.prim "i32" 7]
      = .ok (Val.struc "W" [Val.prim "i32" 0])
    ∧ Val.prim "i32" 0 ≠ Val.prim "i32" 7 := by
  refine ⟨rfl, ?_⟩
  intro h
  injection h with h1 h2
  exact absurd h2 (by decide)

/-- C10 (amended): excess arguments are never an error: arguments are popped
off the end of the list, so on a named-field product the last N arguments are
bound to the N fields in declaration order and the leading excess is silently
discarded (on an indexed product the same pops and downcast checks run and
the excess is equally ignored, but the separate constructor bug substitutes
index literals for the popped values — see the counterexample); construction
of a Unit-shaped product, and of a Unit-shaped variant through
`construct_enum`, succeeds for every argument list, including non-empty
ones. -/
theorem c10_excess_args_ignored (ty name : String) (fs : List Field)
    (args extra eargs uargs : List Val) (pre rest : List Variant)
    (hmatch : List.Forall₂ argMatches fs args)
    (hpre : ∀ v ∈ pre, v.name ≠ name) :
    construct_struct (.Struct (.Named fs)) ty (extra ++ args)
      = .ok (Val.struc ty args)
    ∧ construct_struct (.Struct .Unit) ty uargs = .ok (Val.struc ty [])
    ∧ construct_enum (.Enum (pre ++ ⟨name, Fields.Unit⟩ :: rest)) ty name eargs
      = .ok (Val.enumv ty pre.length []) := by
  refine ⟨?_, rfl, ?_⟩
  · show fieldsCtorBody (Val.struc ty) (.Named fs) (extra ++ args) = _
    have hrevargs : (extra ++ args).reverse = args.reverse ++ extra.reverse := by
      simp
    have hfa : List.Forall₂ argMatches fs.reverse args.reverse :=
      List.forall₂_reverse_iff.2 hmatch
    simp only [fieldsCtorBody, hrevargs]
    rw [ctorPopLoop_ok hfa (fs.length - 1) extra.reverse]
    simp
  · show enumCtorMatch ty 0 (pre ++ ⟨name, Fields.Unit⟩ :: rest) name eargs = _
    rw [enumCtorMatch_unit ty name rest eargs pre 0 hpre]
    simp

/-- Witness for C10 (amended): a one-named-field product given one excess
leading argument binds the last argument to the field; a Unit variant behind
one non-matching variant is constructed from a non-empty argument list. -/
theorem c10_excess_args_ignored_witness :
    List.Forall₂ argMatches [⟨.Named "x", "i32"⟩] [Val.prim "i32" 1]
    ∧ (∀ v ∈ ([⟨"A", Fields.Unit⟩] : List Variant), v.name ≠ "B")
    ∧ construct_struct (.Struct (.Named [⟨.Named "x", "i32"⟩])) "S"
        ([Val.prim "u8" 2] ++ [Val.prim "i32" 1])
      = .ok (Val.struc "S" [Val.prim "i32" 1])
    ∧ construct_enum
        (.Enum ([⟨"A", Fields.Unit⟩] ++ ⟨"B", Fields.Unit⟩ :: []))
        "E" "B" [Val.prim "i32" 9]
      = .ok (Val.enumv "E" ([⟨"A", Fields.Unit⟩] : List Variant).length []) := by
  have hf : List.Forall₂ argMatches [⟨.Named "x", "i32"⟩] [Val.prim "i32" 1] :=
    List.Forall₂.cons rfl List.Forall₂.nil
  have hp : ∀ v ∈ ([⟨"A", Fields.Unit⟩] : List Variant), v.name ≠ "B" := by
    intro v hv
    rw [List.mem_singleton] at hv
    subst hv
    decide
  refine ⟨hf, hp, ?_, ?_⟩
  · exact (c10_excess_args_ignored "S" "B" [⟨.Named "x", "i32"⟩]
      [Val.prim "i32" 1] [Val.prim "u8" 2] [Val.prim "i32" 9] []
      [⟨"A", Fields.Unit⟩] [] hf hp).1
  · exact (c10_excess_args_ignored "E" "B" [⟨.Named "x", "i32"⟩]
      [Val.prim "i32" 1] [Val.prim "u8" 2] [Val.prim "i32" 9] []
      [⟨"A", Fields.Unit⟩] [] hf hp).2.2

end Reflectix
